import Mathlib

/-!
Verification of the Scandium precision-landing core against its specification.

The definitions below are a shallow embedding of the Python sources:
  * `src/scandium/control/fsm.py`        — the landing state machine,
  * `src/scandium/perception/pose/filtering.py` — the exponential pose smoother,
  * `src/scandium/control/safety.py`     — the safety supervisor's velocity clamp.

Python floats are modelled by `ℚ` where only ordinary (finite) arithmetic is
exercised, by `ℝ` where a genuine square root is computed (`clamp_velocity`),
and by the IEEE-style type `PF` (finite rationals plus `inf`, `-inf`, `nan`)
where the behaviour on non-finite values is itself what a claim is about
(the pose smoother).
-/

namespace Scandium

/-- States of the landing state machine (`LandingState` in `fsm.py`). -/
inductive LandingState where
  | INIT
  | IDLE
  | SEARCH
  | ACQUIRE
  | ALIGN
  | DESCEND
  | TOUCHDOWN
  | ABORT
  | FAILSAFE
deriving DecidableEq, Repr

/-- Per-tick input snapshot (`SystemInputs` in `fsm.py`).  The source default
for `lateral_error_m` is `+inf`, a value that never satisfies the alignment
guard; here every snapshot is built explicitly so the wall-clock/default
values of the Python dataclass play no role. -/
structure SystemInputs where
  target_visible : Bool := false
  target_confidence : ℚ := 0
  lateral_error_m : ℚ := 100
  altitude_m : ℚ := 100
  landability_score : ℚ := 1
  mavlink_connected : Bool := true
  camera_connected : Bool := true
  arm_command : Bool := false
  abort_command : Bool := false
  timestamp : ℚ := 0
  human_present : Bool := false
  variance : ℚ := 0
deriving DecidableEq, Repr

/-- Per-tick output (`SystemOutputs` in `fsm.py`). -/
structure SystemOutputs where
  state : LandingState
  publish_landing_target : Bool := false
  abort_reason : Option String := none
  confidence_gain : ℚ := 1
  state_changed : Bool := false
deriving DecidableEq, Repr

/-- The state-machine object: configuration thresholds from `__init__`
together with the mutable fields (`_state`, `_prev_state`,
`_consecutive_detections`, `_last_target_time`, `_abort_reason`). -/
structure LandingFSM where
  acquire_confidence : ℚ := 7/10
  align_error_m : ℚ := 1/4
  abort_landability : ℚ := 2/5
  touchdown_altitude_m : ℚ := 1/2
  max_variance : ℚ := 1/2
  consecutive_frames_for_acquire : ℕ := 5
  target_lost_timeout_s : ℚ := 2
  state : LandingState := LandingState.INIT
  prev_state : LandingState := LandingState.INIT
  consecutive_detections : ℕ := 0
  last_target_time : Option ℚ := none
  abort_reason : Option String := none
deriving DecidableEq, Repr

/-- A freshly constructed FSM with the source's default thresholds. -/
def LandingFSM.new : LandingFSM := {}

/-- `LandingFSM._transition_to`: assign the new state (the source logs when it
differs; the state field ends up equal to `new_state` either way). -/
def LandingFSM.transition_to (f : LandingFSM) (new_state : LandingState) : LandingFSM :=
  { f with state := new_state }

/-- `LandingFSM._compute_gain`. -/
def LandingFSM.compute_gain (f : LandingFSM) : ℚ :=
  if f.state = LandingState.SEARCH then 1/2
  else if f.state = LandingState.ACQUIRE then 7/10
  else 1

/-- `LandingFSM._make_output`. -/
def LandingFSM.make_output (f : LandingFSM) : SystemOutputs :=
  { state := f.state
    publish_landing_target :=
      f.state == LandingState.ACQUIRE || f.state == LandingState.ALIGN ||
        f.state == LandingState.DESCEND
    abort_reason := f.abort_reason
    confidence_gain := f.compute_gain
    state_changed := f.state != f.prev_state }

/-- `LandingFSM._handle_init`. -/
def LandingFSM.handle_init (f : LandingFSM) (i : SystemInputs) : LandingFSM :=
  if i.mavlink_connected && i.camera_connected then
    f.transition_to LandingState.IDLE
  else f

/-- `LandingFSM._handle_idle`. -/
def LandingFSM.handle_idle (f : LandingFSM) (i : SystemInputs) : LandingFSM :=
  if i.arm_command then
    if i.target_visible then f.transition_to LandingState.ACQUIRE
    else f.transition_to LandingState.SEARCH
  else f

/-- `LandingFSM._handle_search`. -/
def LandingFSM.handle_search (f : LandingFSM) (i : SystemInputs) : LandingFSM :=
  if i.target_visible && decide (i.target_confidence ≥ f.acquire_confidence) then
    let f1 := { f with consecutive_detections := f.consecutive_detections + 1 }
    if f1.consecutive_detections ≥ f1.consecutive_frames_for_acquire then
      { f1.transition_to LandingState.ACQUIRE with consecutive_detections := 0 }
    else f1
  else { f with consecutive_detections := 0 }

/-- `LandingFSM._handle_acquire`. -/
def LandingFSM.handle_acquire (f : LandingFSM) (i : SystemInputs) : LandingFSM :=
  if !i.target_visible then f.transition_to LandingState.SEARCH
  else if i.landability_score < f.abort_landability then
    { f.transition_to LandingState.ABORT with abort_reason := some "low_landability" }
  else if i.variance < f.max_variance then f.transition_to LandingState.ALIGN
  else f

/-- `LandingFSM._handle_target_lost`. -/
def LandingFSM.handle_target_lost (f : LandingFSM) (i : SystemInputs) : LandingFSM :=
  let f1 := if f.last_target_time = none then
    { f with last_target_time := some i.timestamp } else f
  match f1.last_target_time with
  | some t0 =>
      if i.timestamp - t0 > f1.target_lost_timeout_s then
        { f1.transition_to LandingState.SEARCH with last_target_time := none }
      else f1
  | none => f1

/-- `LandingFSM._handle_align`. -/
def LandingFSM.handle_align (f : LandingFSM) (i : SystemInputs) : LandingFSM :=
  if !i.target_visible then f.handle_target_lost i
  else if i.landability_score < f.abort_landability then
    { f.transition_to LandingState.ABORT with abort_reason := some "low_landability" }
  else if i.lateral_error_m ≤ f.align_error_m then f.transition_to LandingState.DESCEND
  else f

/-- `LandingFSM._handle_descend`. -/
def LandingFSM.handle_descend (f : LandingFSM) (i : SystemInputs) : LandingFSM :=
  if !i.target_visible then f.handle_target_lost i
  else if i.landability_score < f.abort_landability then
    { f.transition_to LandingState.ABORT with abort_reason := some "low_landability" }
  else if i.altitude_m ≤ f.touchdown_altitude_m then
    f.transition_to LandingState.TOUCHDOWN
  else f

/-- `LandingFSM.tick`: the priority checks (link loss, external abort, human
presence) followed by the per-state handler, returning the updated object
together with the produced `SystemOutputs`. -/
def LandingFSM.tick (f0 : LandingFSM) (i : SystemInputs) : LandingFSM × SystemOutputs :=
  let f := { f0 with prev_state := f0.state }
  if !i.mavlink_connected || !i.camera_connected then
    let f1 := { f.transition_to LandingState.FAILSAFE with abort_reason := some "link_lost" }
    (f1, f1.make_output)
  else if i.abort_command then
    let f1 := { f.transition_to LandingState.ABORT with abort_reason := some "external_command" }
    (f1, f1.make_output)
  else if i.human_present &&
      !(f.state == LandingState.INIT || f.state == LandingState.IDLE ||
        f.state == LandingState.ABORT || f.state == LandingState.FAILSAFE) then
    let f1 := { f.transition_to LandingState.ABORT with abort_reason := some "human_present" }
    (f1, f1.make_output)
  else
    let f1 := match f.state with
      | LandingState.INIT => f.handle_init i
      | LandingState.IDLE => f.handle_idle i
      | LandingState.SEARCH => f.handle_search i
      | LandingState.ACQUIRE => f.handle_acquire i
      | LandingState.ALIGN => f.handle_align i
      | LandingState.DESCEND => f.handle_descend i
      | LandingState.TOUCHDOWN => f
      | LandingState.ABORT => f
      | LandingState.FAILSAFE => f
    (f1, f1.make_output)

/-- `LandingFSM.reset`: every mutable field back to its initial value. -/
def LandingFSM.reset (f : LandingFSM) : LandingFSM :=
  { f with state := LandingState.INIT
           prev_state := LandingState.INIT
           consecutive_detections := 0
           last_target_time := none
           abort_reason := none }

/-- Fold `tick` over a list of input snapshots, keeping the final FSM. -/
def LandingFSM.run (f : LandingFSM) : List SystemInputs → LandingFSM
  | [] => f
  | i :: rest => ((f.tick i).1).run rest

/-- Fold `tick` over a list of input snapshots, collecting the outputs. -/
def LandingFSM.runOutputs (f : LandingFSM) : List SystemInputs → List SystemOutputs
  | [] => []
  | i :: rest => (f.tick i).2 :: ((f.tick i).1).runOutputs rest

/-- The configuration (threshold) fields of an FSM object, which `__init__`
sets once and no method ever writes. -/
def LandingFSM.config (f : LandingFSM) : ℚ × ℚ × ℚ × ℚ × ℚ × ℕ × ℚ :=
  (f.acquire_confidence, f.align_error_m, f.abort_landability, f.touchdown_altitude_m,
   f.max_variance, f.consecutive_frames_for_acquire, f.target_lost_timeout_s)

/-! ### IEEE-754-style scalars for the pose filter

`filtering.py` manipulates numpy `float64` values, and the behaviour of the
exponential smoother on non-finite measurements is itself the subject of a
claim.  `PF` models a float as a finite rational or one of the special values
`inf`, `-inf`, `nan`; the arithmetic below follows IEEE-754 (which numpy
implements) for every operation the smoother performs.  Signed zeros are
collapsed to `0`; the smoother never distinguishes them. -/

/-- A numpy float64 value: finite (exact rational), `inf`, `-inf`, or `nan`. -/
inductive PF where
  | fin (q : ℚ)
  | inf
  | ninf
  | nan
deriving DecidableEq, Repr

/-- IEEE negation. -/
def PF.neg : PF → PF
  | fin q => fin (-q)
  | inf => ninf
  | ninf => inf
  | nan => nan

/-- IEEE addition: `nan` is absorbing, opposite infinities give `nan`. -/
def PF.add : PF → PF → PF
  | nan, _ => nan
  | _, nan => nan
  | inf, ninf => nan
  | ninf, inf => nan
  | inf, _ => inf
  | _, inf => inf
  | ninf, _ => ninf
  | _, ninf => ninf
  | fin a, fin b => fin (a + b)

/-- IEEE subtraction. -/
def PF.sub (a b : PF) : PF := a.add b.neg

/-- IEEE multiplication: `nan` is absorbing, `0 * ±inf = nan`. -/
def PF.mul : PF → PF → PF
  | nan, _ => nan
  | _, nan => nan
  | inf, inf => inf
  | inf, ninf => ninf
  | ninf, inf => ninf
  | ninf, ninf => inf
  | inf, fin q => if 0 < q then inf else if q < 0 then ninf else nan
  | fin q, inf => if 0 < q then inf else if q < 0 then ninf else nan
  | ninf, fin q => if 0 < q then ninf else if q < 0 then inf else nan
  | fin q, ninf => if 0 < q then ninf else if q < 0 then inf else nan
  | fin a, fin b => fin (a * b)

/-- IEEE division as numpy computes it (elementwise, no exception):
`nan` absorbing, `inf/inf = nan`, `x/0` is `nan` for `x = 0` and a signed
infinity otherwise, `x/±inf = 0`. -/
def PF.div : PF → PF → PF
  | nan, _ => nan
  | _, nan => nan
  | inf, inf => nan
  | inf, ninf => nan
  | ninf, inf => nan
  | ninf, ninf => nan
  | inf, fin q => if q < 0 then ninf else inf
  | ninf, fin q => if q < 0 then inf else ninf
  | fin _, inf => fin 0
  | fin _, ninf => fin 0
  | fin a, fin b =>
      if b = 0 then (if a = 0 then nan else if 0 < a then inf else ninf)
      else fin (a / b)

/-- `np.maximum`: propagates `nan` from either argument, otherwise the larger
value with `inf` on top and `-inf` on the bottom. -/
def PF.maximum : PF → PF → PF
  | nan, _ => nan
  | _, nan => nan
  | inf, _ => inf
  | _, inf => inf
  | ninf, b => b
  | a, ninf => a
  | fin a, fin b => fin (max a b)

/-- The comparison `float(np.sqrt(x)) > t` for a finite threshold `t`:
`np.sqrt` of `nan` or of a negative value is `nan`, and `nan > t` is `False`;
`np.sqrt(inf) = inf` exceeds every finite `t`; for finite `x ≥ 0`,
`sqrt x > t` iff `t < 0` or `t² < x` (`PF.sqrtGt_fin_iff` below proves this
encoding equal to the real-number comparison). -/
def PF.sqrtGt : PF → ℚ → Bool
  | nan, _ => false
  | ninf, _ => false
  | inf, _ => true
  | fin q, t => if q < 0 then false else (decide (t < 0) || decide (t ^ 2 < q))

/-- Whether the value is a finite float. -/
def PF.isFinite : PF → Bool
  | fin _ => true
  | _ => false

/-- Whether the value is `nan`. -/
def PF.isNaN : PF → Bool
  | nan => true
  | _ => false

/-- A 3-vector of floats (a numpy array of shape `(3,)`). -/
structure V3 where
  x : PF
  y : PF
  z : PF
deriving DecidableEq, Repr

/-- Elementwise map (numpy broadcasting of a unary op). -/
def V3.map (g : PF → PF) (v : V3) : V3 := ⟨g v.x, g v.y, g v.z⟩

/-- Elementwise combination (numpy broadcasting of a binary op). -/
def V3.map2 (g : PF → PF → PF) (u v : V3) : V3 := ⟨g u.x v.x, g u.y v.y, g u.z v.z⟩

/-- `np.sum`, accumulating left to right. -/
def V3.sum (v : V3) : PF := (v.x.add v.y).add v.z

/-- `np.full(3, c)` for a finite scalar. -/
def V3.const (q : ℚ) : V3 := ⟨PF.fin q, PF.fin q, PF.fin q⟩

/-- All three components are finite floats. -/
def V3.allFinite (v : V3) : Bool := v.x.isFinite && v.y.isFinite && v.z.isFinite

/-- Some component is `nan`. -/
def V3.hasNaN (v : V3) : Bool := v.x.isNaN || v.y.isNaN || v.z.isNaN

/-- Filtered pose estimate (`FilteredPose` in `filtering.py`). -/
structure FilteredPose where
  position : V3
  variance : V3
  velocity : V3 := V3.const 0
  is_valid : Bool := true
  timestamp : ℚ := 0
deriving DecidableEq, Repr

/-- The exponential smoother object: constructor parameters (`__init__`
validates `0 < alpha ≤ 1`; that bound is carried as a hypothesis where
needed) plus the mutable fields `_state`, `_variance`, `_last_time`,
`_velocity`. -/
structure ExpSmoother where
  alpha : ℚ := 7/20
  outlier_threshold : ℚ := 4
  initial_variance : ℚ := 1
  state : Option V3 := none
  variance : Option V3 := none
  last_time : Option ℚ := none
  velocity : V3 := V3.const 0
deriving DecidableEq, Repr

/-- `ExpSmoother._is_outlier`: diagonal Mahalanobis distance
`sqrt(Σ diffᵢ² / max(varᵢ, 1e-6))` compared against the threshold. -/
def ExpSmoother.is_outlier (s : ExpSmoother) (m : V3) : Bool :=
  match s.state, s.variance with
  | some st, some va =>
      let diff := V3.map2 PF.sub m st
      let var_safe := va.map (fun v => v.maximum (PF.fin (1/1000000)))
      let mahal_sq := (V3.map2 PF.div (V3.map2 PF.mul diff diff) var_safe).sum
      mahal_sq.sqrtGt s.outlier_threshold
  | _, _ => false

/-- `ExpSmoother.update`.  First call: adopt the measurement, set the initial
variance, record the timestamp.  Otherwise: if `_is_outlier`, inflate the
variance by 1.5 and return the unchanged state; else smooth velocity (only
when `timestamp > _last_time`), state and variance with factor `alpha`.
In the Python object `_state` and `_variance` are `None` simultaneously;
the unreachable mixed case is modelled as a no-op. -/
def ExpSmoother.update (s : ExpSmoother) (measurement : V3)
    (measurement_variance : ℚ := 1/10) (timestamp : ℚ := 0) :
    ExpSmoother × FilteredPose :=
  match s.state, s.variance with
  | none, _ =>
      let s1 := { s with state := some measurement
                         variance := some (V3.const s.initial_variance)
                         last_time := some timestamp }
      (s1, { position := measurement, variance := V3.const s.initial_variance,
             velocity := s1.velocity, is_valid := true, timestamp := timestamp })
  | some st, none =>
      (s, { position := st, variance := V3.const 0,
            velocity := s.velocity, is_valid := true, timestamp := timestamp })
  | some st, some va =>
      if s.is_outlier measurement then
        let newvar := va.map (fun v => v.mul (PF.fin (3/2)))
        let s1 := { s with variance := some newvar }
        (s1, { position := st, variance := newvar,
               velocity := s.velocity, is_valid := true, timestamp := timestamp })
      else
        let vel := match s.last_time with
          | some lt =>
              if lt < timestamp then
                let new_velocity :=
                  (V3.map2 PF.sub measurement st).map
                    (fun c => c.div (PF.fin (timestamp - lt)))
                V3.map2 PF.add
                  (new_velocity.map (fun c => (PF.fin s.alpha).mul c))
                  (s.velocity.map (fun c => (PF.fin (1 - s.alpha)).mul c))
              else s.velocity
          | none => s.velocity
        let newstate :=
          V3.map2 PF.add
            (measurement.map (fun c => (PF.fin s.alpha).mul c))
            (st.map (fun c => (PF.fin (1 - s.alpha)).mul c))
        let newvar :=
          va.map (fun v =>
            (PF.fin (s.alpha * measurement_variance)).add
              ((PF.fin (1 - s.alpha)).mul v))
        let s1 := { s with state := some newstate
                           variance := some newvar
                           velocity := vel
                           last_time := some timestamp }
        (s1, { position := newstate, variance := newvar, velocity := vel,
               is_valid := true, timestamp := timestamp })

/-! ### Velocity clamping

`SafetySupervisor.clamp_velocity` computes a genuine square root, so it is
modelled over `ℝ`. -/

/-- Safety limits configuration (`SafetyLimits` in `safety.py`). -/
structure SafetyLimits where
  max_lateral_speed_mps : ℝ := 1.5
  max_descent_speed_mps : ℝ := 0.7
  min_safe_altitude_m : ℝ := 2
  max_jerk_mps3 : ℝ := 5
  perception_timeout_s : ℝ := 1
  mavlink_timeout_s : ℝ := 3

/-- `SafetySupervisor.clamp_velocity`: scale limits by confidence, rescale
the lateral pair onto the limit circle when it is exceeded, cap `vz` (down
positive) at the descent limit. -/
noncomputable def clamp_velocity (limits : SafetyLimits)
    (vx vy vz : ℝ) (confidence : ℝ := 1) : ℝ × ℝ × ℝ :=
  let lat_limit := limits.max_lateral_speed_mps * confidence
  let desc_limit := limits.max_descent_speed_mps * confidence
  let lateral_speed := Real.sqrt (vx ^ 2 + vy ^ 2)
  let lat : ℝ × ℝ :=
    if lateral_speed > lat_limit then
      let scale := lat_limit / lateral_speed
      (vx * scale, vy * scale)
    else (vx, vy)
  let vz1 := if vz > desc_limit then desc_limit else vz
  (lat.1, lat.2, vz1)

/-! ### Concrete FSM runs used by counterexamples and witnesses -/

/-- An FSM driven into `ABORT` by an external abort command on the first tick. -/
def fsmAbortExample : LandingFSM := ((LandingFSM.new).tick { abort_command := true }).1

/-- Snapshot with an arm command and a confidently visible target. -/
def inputsAcquire : SystemInputs :=
  { arm_command := true, target_visible := true, target_confidence := 8/10 }

/-- An FSM driven `INIT → IDLE → SEARCH` (armed, no target). -/
def fsmSearchExample : LandingFSM :=
  (((LandingFSM.new).tick {}).1.tick { arm_command := true }).1

/-- An FSM driven `INIT → IDLE → ACQUIRE → ALIGN` (default variance 0 passes
the variance gate). -/
def fsmAlignExample : LandingFSM :=
  ((((LandingFSM.new).tick {}).1.tick inputsAcquire).1.tick inputsAcquire).1

/-- The aligned FSM after one tick in which the target is lost at `t = 10`:
still `ALIGN`, target-lost timer started at 10. -/
def fsmAlignLost : LandingFSM :=
  (fsmAlignExample.tick { target_visible := false, timestamp := 10 }).1

/-- The same FSM after the target reappears at `t = 11` (still unaligned). -/
def fsmAlignReseen : LandingFSM :=
  (fsmAlignLost.tick
    { target_visible := true, target_confidence := 8/10, lateral_error_m := 5,
      timestamp := 11 }).1

/-- A smoother (default `alpha = 0.35`, threshold 4, initial variance 1)
initialized at the origin by a first `update`. -/
def smootherAtOrigin : ExpSmoother := (({} : ExpSmoother).update (V3.const 0) (1/10) 0).1

/-- A smoother with `alpha = 1/2` (the C8 scenario). -/
def smootherHalf : ExpSmoother := { alpha := 1/2 }

/-- The `alpha = 1/2` smoother after `update([1,1,1], t=0)`. -/
def smootherHalfInit : ExpSmoother := (smootherHalf.update (V3.const 1) (1/10) 0).1

/-! ### Helper lemmas -/

lemma tick_config (f : LandingFSM) (i : SystemInputs) :
    ((f.tick i).1).config = f.config := by
  unfold LandingFSM.tick LandingFSM.config LandingFSM.handle_init LandingFSM.handle_idle
    LandingFSM.handle_search LandingFSM.handle_acquire LandingFSM.handle_align
    LandingFSM.handle_descend LandingFSM.handle_target_lost LandingFSM.transition_to
  cases f.state <;> dsimp only <;> split_ifs <;> simp_all <;>
    rcases h : f.last_target_time with _ | t0 <;> simp_all <;> split_ifs <;> simp_all

lemma run_config (f : LandingFSM) (l : List SystemInputs) :
    (f.run l).config = f.config := by
  induction l generalizing f with
  | nil => rfl
  | cons i rest ih => rw [LandingFSM.run, ih, tick_config]

lemma reset_eq_of_config {f g : LandingFSM} (h : f.config = g.config) :
    f.reset = g.reset := by
  cases f; cases g
  simp only [LandingFSM.config, Prod.mk.injEq] at h
  simp [LandingFSM.reset, h.1, h.2.1, h.2.2.1, h.2.2.2.1, h.2.2.2.2.1,
    h.2.2.2.2.2.1, h.2.2.2.2.2.2]

/-! ### Claims about the landing FSM -/

lemma tick_terminal (f : LandingFSM) (i : SystemInputs)
    (h : f.state = LandingState.TOUCHDOWN ∨ f.state = LandingState.ABORT ∨
      f.state = LandingState.FAILSAFE) :
    (f.tick i).1.state = LandingState.TOUCHDOWN ∨ (f.tick i).1.state = LandingState.ABORT ∨
      (f.tick i).1.state = LandingState.FAILSAFE := by
  rcases h with h | h | h <;>
    simp [LandingFSM.tick, LandingFSM.transition_to, h] <;> split_ifs <;> simp

/-- Claim C1 (amended): the set `{Touchdown, Abort, Failsafe}` is absorbing —
no sequence of `tick` calls leaves it — and a tick on which no priority rule
fires (links up, no abort command, no human) leaves the state unchanged.
The individual states are not terminal: the priority rules still move the
state inside the set (see the counterexample). -/
theorem terminal_set_absorbing (f : LandingFSM) (l : List SystemInputs) (i : SystemInputs)
    (h : f.state = LandingState.TOUCHDOWN ∨ f.state = LandingState.ABORT ∨
      f.state = LandingState.FAILSAFE) :
    ((f.run l).state = LandingState.TOUCHDOWN ∨ (f.run l).state = LandingState.ABORT ∨
      (f.run l).state = LandingState.FAILSAFE)
    ∧ (i.mavlink_connected = true → i.camera_connected = true → i.abort_command = false →
        i.human_present = false → (f.tick i).1.state = f.state) := by
  constructor
  · induction l generalizing f with
    | nil => exact h
    | cons j rest ih => exact ih _ (tick_terminal f j h)
  · intro hm hc ha hh
    rcases h with h | h | h <;> simp [LandingFSM.tick, hm, hc, ha, hh, h]

/-- Claim C1, counterexample to the claim as stated: an FSM in the terminal
state `ABORT` leaves it on the very next tick when the MAVLink connection
drops — `tick` moves it to `FAILSAFE` without any `reset`. -/
theorem touchdown_abort_failsafe_cex :
    fsmAbortExample.state = LandingState.ABORT ∧
    (fsmAbortExample.tick { mavlink_connected := false }).1.state = LandingState.FAILSAFE := by
  with_unfolding_all decide

/-- Claim C1, witness: the absorbing-set theorem applied to a concrete
aborted FSM and a link-loss input. -/
theorem terminal_set_absorbing_witness :
    (fsmAbortExample.run [{ mavlink_connected := false }]).state = LandingState.TOUCHDOWN ∨
    (fsmAbortExample.run [{ mavlink_connected := false }]).state = LandingState.ABORT ∨
    (fsmAbortExample.run [{ mavlink_connected := false }]).state = LandingState.FAILSAFE :=
  (terminal_set_absorbing fsmAbortExample [{ mavlink_connected := false }]
    { mavlink_connected := false } (by with_unfolding_all decide)).1

/-- Claim C2 (amended): when both links are up and there is no external abort
command, a snapshot with `human_present = true` taken in a state outside
`{Init, Idle, Abort, Failsafe}` drives the FSM to `Abort` with reason
`"human_present"`, regardless of every remaining input field.  (The claim's
"regardless of mavlink_connected, camera_connected and abort_command" is
false: those three are checked at higher priority — see the counterexample.) -/
theorem human_present_priority (f : LandingFSM) (i : SystemInputs)
    (hm : i.mavlink_connected = true) (hc : i.camera_connected = true)
    (ha : i.abort_command = false) (hh : i.human_present = true)
    (h1 : f.state ≠ LandingState.INIT) (h2 : f.state ≠ LandingState.IDLE)
    (h3 : f.state ≠ LandingState.ABORT) (h4 : f.state ≠ LandingState.FAILSAFE) :
    (f.tick i).2.state = LandingState.ABORT ∧
      (f.tick i).2.abort_reason = some "human_present" ∧
      (f.tick i).1.state = LandingState.ABORT := by
  simp [LandingFSM.tick, LandingFSM.transition_to, LandingFSM.make_output,
    hm, hc, ha, hh, h1, h2, h3, h4]

/-- Claim C2, counterexample to the claim as stated: in `SEARCH` with
`human_present = true` and `abort_command = true`, the abort command is
checked first, so the reported reason is `"external_command"`, not
`"human_present"`. -/
theorem human_present_priority_cex :
    fsmSearchExample.state = LandingState.SEARCH ∧
    (fsmSearchExample.tick { human_present := true, abort_command := true }).2.state =
      LandingState.ABORT ∧
    (fsmSearchExample.tick { human_present := true, abort_command := true }).2.abort_reason =
      some "external_command" := by
  with_unfolding_all decide

/-- Claim C2, witness: the amended priority theorem applied in `SEARCH` with
only `human_present` set. -/
theorem human_present_priority_witness :
    (fsmSearchExample.tick { human_present := true }).2.state = LandingState.ABORT ∧
    (fsmSearchExample.tick { human_present := true }).2.abort_reason = some "human_present" :=
  ⟨(human_present_priority fsmSearchExample { human_present := true }
      rfl rfl rfl rfl (by with_unfolding_all decide) (by with_unfolding_all decide)
      (by with_unfolding_all decide) (by with_unfolding_all decide)).1,
   (human_present_priority fsmSearchExample { human_present := true }
      rfl rfl rfl rfl (by with_unfolding_all decide) (by with_unfolding_all decide)
      (by with_unfolding_all decide) (by with_unfolding_all decide)).2.1⟩

/-- Claim C3 (confirmed): a snapshot with either link down sends `tick` to
`Failsafe` with abort reason `"link_lost"`, from every current state and
irrespective of every other input field — the link check is the very first
rule of `tick`, so nothing (including `abort_command`) can override it. -/
theorem link_loss_failsafe (f : LandingFSM) (i : SystemInputs)
    (h : i.mavlink_connected = false ∨ i.camera_connected = false) :
    (f.tick i).2.state = LandingState.FAILSAFE ∧
      (f.tick i).2.abort_reason = some "link_lost" ∧
      (f.tick i).1.state = LandingState.FAILSAFE := by
  rcases h with h | h <;>
    simp [LandingFSM.tick, LandingFSM.transition_to, LandingFSM.make_output, h]

/-- Claim C3, witness: link-loss theorem applied to a fresh FSM with the
MAVLink flag down. -/
theorem link_loss_failsafe_witness :
    ((LandingFSM.new).tick { mavlink_connected := false }).2.state = LandingState.FAILSAFE ∧
    ((LandingFSM.new).tick { mavlink_connected := false }).2.abort_reason = some "link_lost" :=
  ⟨(link_loss_failsafe LandingFSM.new { mavlink_connected := false } (Or.inl rfl)).1,
   (link_loss_failsafe LandingFSM.new { mavlink_connected := false } (Or.inl rfl)).2.1⟩

/-- Claim C4 (amended): in `Align`/`Descend`, on a priority-free tick: the
timer starts on the first target-lost tick (and the state is unchanged when
the timeout is nonnegative); a lost tick whose timestamp exceeds the start
by more than `target_lost_timeout_s` transitions to `Search` and clears the
timer; a lost tick within the timeout changes nothing; but a tick on which
the target reappears does NOT clear the timer — it survives unchanged, so a
later loss is measured from the original start, not from zero. -/
theorem target_lost_timer (f : LandingFSM) (i : SystemInputs)
    (hm : i.mavlink_connected = true) (hc : i.camera_connected = true)
    (ha : i.abort_command = false) (hh : i.human_present = false)
    (hs : f.state = LandingState.ALIGN ∨ f.state = LandingState.DESCEND) :
    (i.target_visible = false → f.last_target_time = none → 0 ≤ f.target_lost_timeout_s →
      (f.tick i).1.last_target_time = some i.timestamp ∧ (f.tick i).1.state = f.state)
    ∧ (∀ t0 : ℚ, i.target_visible = false → f.last_target_time = some t0 →
        i.timestamp - t0 > f.target_lost_timeout_s →
        (f.tick i).1.state = LandingState.SEARCH ∧ (f.tick i).1.last_target_time = none)
    ∧ (∀ t0 : ℚ, i.target_visible = false → f.last_target_time = some t0 →
        i.timestamp - t0 ≤ f.target_lost_timeout_s →
        (f.tick i).1.state = f.state ∧ (f.tick i).1.last_target_time = some t0)
    ∧ (i.target_visible = true → (f.tick i).1.last_target_time = f.last_target_time) := by
  refine ⟨?_, ?_, ?_, ?_⟩
  · intro hv hn ht
    rcases hs with h | h <;>
      simp [LandingFSM.tick, LandingFSM.handle_align, LandingFSM.handle_descend,
        LandingFSM.handle_target_lost, LandingFSM.transition_to, hm, hc, ha, hh, hv, hn, h] <;>
      simp [show ¬ f.target_lost_timeout_s < 0 from not_lt.mpr ht]
  · intro t0 hv hl hgt
    rcases hs with h | h <;>
      simp [LandingFSM.tick, LandingFSM.handle_align, LandingFSM.handle_descend,
        LandingFSM.handle_target_lost, LandingFSM.transition_to, hm, hc, ha, hh, hv, hl, h, hgt]
  · intro t0 hv hl hle
    rcases hs with h | h <;>
      simp [LandingFSM.tick, LandingFSM.handle_align, LandingFSM.handle_descend,
        LandingFSM.handle_target_lost, LandingFSM.transition_to, hm, hc, ha, hh, hv, hl, h,
        show ¬ (i.timestamp - t0 > f.target_lost_timeout_s) by linarith]
  · intro hv
    rcases hs with h | h <;>
      simp [LandingFSM.tick, LandingFSM.handle_align, LandingFSM.handle_descend,
        LandingFSM.transition_to, hm, hc, ha, hh, hv, h] <;> split_ifs <;> rfl

/-- Claim C4, counterexample to the claim as stated: after the target was
lost at `t = 10` and reappeared at `t = 11`, the timer still reads 10 —
it was not cleared by the reappearance — so a fresh loss at `t = 12.5`
immediately sends the FSM to `SEARCH` (12.5 − 10 > 2 s timeout), although
under the claimed semantics the new loss would have restarted from zero. -/
theorem target_lost_timer_cex :
    fsmAlignReseen.state = LandingState.ALIGN ∧
    fsmAlignReseen.last_target_time = some 10 ∧
    (fsmAlignReseen.tick { target_visible := false, timestamp := 25/2 }).1.state =
      LandingState.SEARCH := by
  with_unfolding_all decide

/-- Claim C4, witness: the timer theorem applied to the concrete aligned FSM
whose timer reads 10, for the lost tick at `t = 12.5`. -/
theorem target_lost_timer_witness :
    (fsmAlignReseen.tick { target_visible := false, timestamp := 25/2 }).1.state =
      LandingState.SEARCH ∧
    (fsmAlignReseen.tick { target_visible := false, timestamp := 25/2 }).1.last_target_time =
      none :=
  (target_lost_timer fsmAlignReseen { target_visible := false, timestamp := 25/2 }
    rfl rfl rfl rfl (by with_unfolding_all decide)).2.1 10 rfl
    (by with_unfolding_all decide) (by with_unfolding_all decide)

/-- Claim C9 (confirmed): `tick` is a pure function of the object state and
the input snapshot, the threshold configuration is never written by `tick`,
and `reset` clears every mutable field — so replaying any input sequence
from a fresh `reset`, regardless of the history that preceded the reset,
produces the identical sequence of `SystemOutputs`. -/
theorem replay_from_reset_deterministic (f : LandingFSM) (history l : List SystemInputs) :
    ((f.run history).reset).runOutputs l = (f.reset).runOutputs l := by
  rw [reset_eq_of_config (run_config f history)]

/-! ### Helper lemmas for the pose smoother -/

lemma PF.add_nan_left (x : PF) : PF.nan.add x = PF.nan := by cases x <;> rfl

lemma PF.add_nan_right (x : PF) : x.add PF.nan = PF.nan := by cases x <;> rfl

lemma PF.mul_nan_right (x : PF) : x.mul PF.nan = PF.nan := by cases x <;> rfl

lemma PF.sub_nan_left (x : PF) : PF.nan.sub x = PF.nan := by cases x <;> rfl

lemma PF.div_nan_left (x : PF) : PF.nan.div x = PF.nan := by cases x <;> rfl

lemma PF.isNaN_iff (x : PF) : x.isNaN = true ↔ x = PF.nan := by
  cases x <;> simp [PF.isNaN]

/-- Justification of the `sqrtGt` encoding: for a finite nonnegative operand
it coincides with the real-number comparison `t < √q`. -/
lemma PF.sqrtGt_fin_iff (q t : ℚ) (hq : 0 ≤ q) :
    PF.sqrtGt (PF.fin q) t = true ↔ (t : ℝ) < Real.sqrt (q : ℝ) := by
  simp only [PF.sqrtGt]
  rw [if_neg (not_lt.mpr hq)]
  by_cases ht : t < 0
  · simp only [ht, decide_True, Bool.true_or, true_iff]
    calc (t : ℝ) < 0 := by exact_mod_cast ht
      _ ≤ Real.sqrt (q : ℝ) := Real.sqrt_nonneg _
  · have ht' : (0 : ℝ) ≤ (t : ℝ) := by exact_mod_cast not_lt.mp ht
    simp only [ht, decide_False, Bool.false_or, decide_eq_true_eq]
    rw [Real.lt_sqrt ht']
    exact ⟨fun h => by exact_mod_cast h, fun h => by exact_mod_cast h⟩

/-- Effect of the outlier branch of `update`: state, velocity and `_last_time`
untouched, every variance component multiplied by 1.5, current state returned. -/
lemma update_outlier (s : ExpSmoother) (st va m : V3) (mv ts : ℚ)
    (hst : s.state = some st) (hva : s.variance = some va)
    (ho : s.is_outlier m = true) :
    (s.update m mv ts).1.state = some st ∧
    (s.update m mv ts).1.velocity = s.velocity ∧
    (s.update m mv ts).1.variance = some (va.map (fun v => v.mul (PF.fin (3/2)))) ∧
    (s.update m mv ts).2.position = st ∧
    (s.update m mv ts).2.velocity = s.velocity ∧
    (s.update m mv ts).1.last_time = s.last_time := by
  simp [ExpSmoother.update, hst, hva, ho]

lemma sum_nan (v : V3) (h : v.hasNaN = true) : v.sum = PF.nan := by
  rcases v with ⟨a, b, c⟩
  simp [V3.hasNaN, PF.isNaN_iff] at h
  rcases h with (h | h) | h <;> subst h <;>
    simp [V3.sum, PF.add_nan_left, PF.add_nan_right]

/-- A `nan` anywhere in the measurement poisons the Mahalanobis distance, and
`nan > threshold` is false: the measurement is NOT rejected as an outlier. -/
lemma is_outlier_nan (s : ExpSmoother) (st va m : V3)
    (hst : s.state = some st) (hva : s.variance = some va)
    (hm : m.hasNaN = true) : s.is_outlier m = false := by
  rcases m with ⟨a, b, c⟩
  simp only [ExpSmoother.is_outlier, hst, hva]
  have : (V3.map2 PF.div
      (V3.map2 PF.mul (V3.map2 PF.sub ⟨a, b, c⟩ st) (V3.map2 PF.sub ⟨a, b, c⟩ st))
      (va.map (fun v => v.maximum (PF.fin (1/1000000))))).hasNaN = true := by
    simp [V3.hasNaN, PF.isNaN_iff] at hm
    rcases hm with (h | h) | h <;> subst h <;>
      simp [V3.map2, V3.map, V3.hasNaN, PF.sub_nan_left, PF.mul_nan_right,
        PF.div_nan_left, PF.isNaN]
  rw [sum_nan _ this]
  rfl

/-- Since a `nan` measurement is accepted, the smoothing blend stores
`alpha·nan + … = nan` in the filter state. -/
lemma update_nan_state (s : ExpSmoother) (st va m : V3) (mv ts : ℚ)
    (hst : s.state = some st) (hva : s.variance = some va)
    (hm : m.hasNaN = true) :
    ∃ ns, (s.update m mv ts).1.state = some ns ∧ ns.hasNaN = true := by
  have ho := is_outlier_nan s st va m hst hva hm
  refine ⟨V3.map2 PF.add (V3.map (fun c => (PF.fin s.alpha).mul c) m)
      (V3.map (fun c => (PF.fin (1 - s.alpha)).mul c) st), ?_, ?_⟩
  · simp [ExpSmoother.update, hst, hva, ho]
  · rcases m with ⟨a, b, c⟩
    simp [V3.hasNaN, PF.isNaN_iff] at hm
    rcases hm with (h | h) | h <;> subst h <;>
      simp [V3.map2, V3.map, V3.hasNaN, PF.mul_nan_right, PF.add_nan_left, PF.isNaN]

/-- Classification of one Mahalanobis term: with a finite state component and
finite variance component, a non-nan measurement component yields a finite
term, and a non-finite (infinite) one yields `inf`. -/
lemma outlier_term_class (mc : PF) (ac vc : ℚ) :
    ((mc.isFinite = true →
      ∃ q, ((mc.sub (PF.fin ac)).mul (mc.sub (PF.fin ac))).div
        ((PF.fin vc).maximum (PF.fin (1/1000000))) = PF.fin q) ∧
     (mc.isNaN = false → mc.isFinite = false →
      ((mc.sub (PF.fin ac)).mul (mc.sub (PF.fin ac))).div
        ((PF.fin vc).maximum (PF.fin (1/1000000))) = PF.inf)) := by
  have hpos : (0 : ℚ) < max vc (1/1000000) := lt_max_of_lt_right (by norm_num)
  have hne : max vc (1/1000000) ≠ (0 : ℚ) := ne_of_gt hpos
  have hnlt : ¬ max vc (1/1000000) < (0 : ℚ) := not_lt.mpr (le_of_lt hpos)
  constructor
  · intro hf
    cases mc with
    | fin q =>
        refine ⟨(q + -ac) * (q + -ac) / max vc (1/1000000), ?_⟩
        simp only [PF.sub, PF.neg, PF.add, PF.mul, PF.maximum, PF.div]
        rw [if_neg hne]
    | inf => simp [PF.isFinite] at hf
    | ninf => simp [PF.isFinite] at hf
    | nan => simp [PF.isFinite] at hf
  · intro hn hf
    cases mc with
    | fin q => simp [PF.isFinite] at hf
    | inf =>
        simp only [PF.sub, PF.neg, PF.add, PF.mul, PF.maximum, PF.div]
        rw [if_neg hnlt]
    | ninf =>
        simp only [PF.sub, PF.neg, PF.add, PF.mul, PF.maximum, PF.div]
        rw [if_neg hnlt]
    | nan => simp [PF.isNaN] at hn

lemma add_fin_or_inf (x y : PF)
    (hx : (∃ q, x = PF.fin q) ∨ x = PF.inf) (hy : (∃ q, y = PF.fin q) ∨ y = PF.inf) :
    ((∃ q, x.add y = PF.fin q) ∨ x.add y = PF.inf) ∧
    ((x = PF.inf ∨ y = PF.inf) → x.add y = PF.inf) := by
  rcases hx with ⟨qx, rfl⟩ | rfl <;> rcases hy with ⟨qy, rfl⟩ | rfl <;>
    simp [PF.add]

/-- A measurement with an infinite component and no `nan` aboard has an
infinite Mahalanobis distance, which exceeds every finite threshold: it IS
rejected as an outlier. -/
lemma is_outlier_inf (s : ExpSmoother) (a b c : PF) (a1 a2 a3 v1 v2 v3 : ℚ)
    (hst : s.state = some ⟨PF.fin a1, PF.fin a2, PF.fin a3⟩)
    (hva : s.variance = some ⟨PF.fin v1, PF.fin v2, PF.fin v3⟩)
    (hn : V3.hasNaN ⟨a, b, c⟩ = false) (hf : V3.allFinite ⟨a, b, c⟩ = false) :
    s.is_outlier ⟨a, b, c⟩ = true := by
  have hna : (a.isNaN = false ∧ b.isNaN = false) ∧ c.isNaN = false := by
    simpa [V3.hasNaN] using hn
  have cls : ∀ (mc : PF) (ac vc : ℚ), mc.isNaN = false →
      ((∃ q, ((mc.sub (PF.fin ac)).mul (mc.sub (PF.fin ac))).div
          ((PF.fin vc).maximum (PF.fin (1/1000000))) = PF.fin q) ∨
        ((mc.sub (PF.fin ac)).mul (mc.sub (PF.fin ac))).div
          ((PF.fin vc).maximum (PF.fin (1/1000000))) = PF.inf) ∧
      (mc.isFinite = false →
        ((mc.sub (PF.fin ac)).mul (mc.sub (PF.fin ac))).div
          ((PF.fin vc).maximum (PF.fin (1/1000000))) = PF.inf) := by
    intro mc ac vc hmn
    obtain ⟨h1, h2⟩ := outlier_term_class mc ac vc
    cases hmf : mc.isFinite with
    | true => exact ⟨Or.inl (h1 hmf), fun h => by simp [hmf] at h⟩
    | false => exact ⟨Or.inr (h2 hmn hmf), fun _ => h2 hmn hmf⟩
  obtain ⟨c1, i1⟩ := cls a a1 v1 hna.1.1
  obtain ⟨c2, i2⟩ := cls b a2 v2 hna.1.2
  obtain ⟨c3, i3⟩ := cls c a3 v3 hna.2
  have hdis : a.isFinite = false ∨ b.isFinite = false ∨ c.isFinite = false := by
    cases ha : a.isFinite <;> cases hb : b.isFinite <;> cases hc : c.isFinite <;>
      simp_all [V3.allFinite]
  simp only [ExpSmoother.is_outlier, hst, hva, V3.map2, V3.map, V3.sum]
  have h12 := add_fin_or_inf _ _ c1 c2
  have h123 := add_fin_or_inf _ _ h12.1 c3
  rcases hdis with h | h | h
  · rw [h123.2 (Or.inl (h12.2 (Or.inl (i1 h))))]; rfl
  · rw [h123.2 (Or.inl (h12.2 (Or.inr (i2 h))))]; rfl
  · rw [h123.2 (Or.inr (i3 h))]; rfl

/-! ### Claims about the pose smoother and the velocity clamp -/

/-- Claim C5 (amended): for an initialized `ExpSmoother` with finite state
and variance, a measurement with an infinite component (and no NaN) is
rejected as an outlier — position and velocity unchanged, variance inflated
by exactly 1.5, no exception raised — but a measurement containing NaN
defeats the outlier test (`nan > threshold` is false in IEEE arithmetic) and
the NaN is propagated into the stored filter state.  (`KalmanFilter3D.update`
performs no finiteness check at all, so the original claim fails for it as
well; the counterexample below exhibits the failure on the smoother.) -/
theorem nonfinite_measurement_handling (s : ExpSmoother) (m : V3)
    (a1 a2 a3 v1 v2 v3 mv ts : ℚ)
    (hst : s.state = some ⟨PF.fin a1, PF.fin a2, PF.fin a3⟩)
    (hva : s.variance = some ⟨PF.fin v1, PF.fin v2, PF.fin v3⟩) :
    (m.hasNaN = false → m.allFinite = false →
      s.is_outlier m = true ∧
      (s.update m mv ts).1.state = some ⟨PF.fin a1, PF.fin a2, PF.fin a3⟩ ∧
      (s.update m mv ts).1.velocity = s.velocity ∧
      (s.update m mv ts).1.variance =
        some ⟨PF.fin (v1 * (3/2)), PF.fin (v2 * (3/2)), PF.fin (v3 * (3/2))⟩ ∧
      (s.update m mv ts).2.position = ⟨PF.fin a1, PF.fin a2, PF.fin a3⟩)
    ∧ (m.hasNaN = true →
      s.is_outlier m = false ∧
      ∃ ns, (s.update m mv ts).1.state = some ns ∧ ns.hasNaN = true) := by
  constructor
  · intro hn hf
    obtain ⟨a, b, c⟩ := m
    have ho := is_outlier_inf s a b c a1 a2 a3 v1 v2 v3 hst hva hn hf
    have h := update_outlier s _ _ _ mv ts hst hva ho
    refine ⟨ho, h.1, h.2.1, ?_, h.2.2.2.1⟩
    rw [h.2.2.1]; simp [V3.map, PF.mul]
  · intro hm
    exact ⟨is_outlier_nan s _ _ m hst hva hm, update_nan_state s _ _ m mv ts hst hva hm⟩

/-- Claim C5, counterexample to the claim as stated: a smoother initialized at
the origin accepts the measurement `[nan, 0, 0]` (it is not treated as an
outlier) and stores NaN in its position state. -/
theorem nonfinite_measurement_cex :
    smootherAtOrigin.state = some (V3.const 0) ∧
    (smootherAtOrigin.update ⟨PF.nan, PF.fin 0, PF.fin 0⟩ (1/10) 1).1.state =
      some ⟨PF.nan, PF.fin 0, PF.fin 0⟩ ∧
    (smootherAtOrigin.update ⟨PF.nan, PF.fin 0, PF.fin 0⟩ (1/10) 1).2.position.hasNaN =
      true := by
  with_unfolding_all decide

/-- Claim C5, witness: the amended theorem applied to the origin-initialized
smoother and the measurement `[inf, 0, 0]`, which is rejected. -/
theorem nonfinite_measurement_witness :
    smootherAtOrigin.is_outlier ⟨PF.inf, PF.fin 0, PF.fin 0⟩ = true ∧
    (smootherAtOrigin.update ⟨PF.inf, PF.fin 0, PF.fin 0⟩ (1/10) 1).1.state =
      some (V3.const 0) ∧
    (smootherAtOrigin.update ⟨PF.inf, PF.fin 0, PF.fin 0⟩ (1/10) 1).1.variance =
      some ⟨PF.fin (1 * (3/2)), PF.fin (1 * (3/2)), PF.fin (1 * (3/2))⟩ :=
  have h := (nonfinite_measurement_handling smootherAtOrigin ⟨PF.inf, PF.fin 0, PF.fin 0⟩
    0 0 0 1 1 1 (1/10) 1 (by with_unfolding_all decide) (by with_unfolding_all decide)).1
    (by with_unfolding_all decide) (by with_unfolding_all decide)
  ⟨h.1, h.2.1, h.2.2.2.1⟩

/-- Claim C6 (confirmed): for an initialized smoother, an update whose
measurement the diagonal-Mahalanobis test rejects (`distance > threshold`)
leaves the stored position and velocity unchanged, multiplies every stored
variance component by exactly 1.5, and returns the unchanged current state. -/
theorem outlier_rejection_effect (s : ExpSmoother) (st m : V3) (v1 v2 v3 mv ts : ℚ)
    (hst : s.state = some st)
    (hva : s.variance = some ⟨PF.fin v1, PF.fin v2, PF.fin v3⟩)
    (ho : s.is_outlier m = true) :
    (s.update m mv ts).1.state = some st ∧
    (s.update m mv ts).1.velocity = s.velocity ∧
    (s.update m mv ts).1.variance =
      some ⟨PF.fin (v1 * (3/2)), PF.fin (v2 * (3/2)), PF.fin (v3 * (3/2))⟩ ∧
    (s.update m mv ts).2.position = st ∧
    (s.update m mv ts).2.velocity = s.velocity := by
  have h := update_outlier s st _ m mv ts hst hva ho
  refine ⟨h.1, h.2.1, ?_, h.2.2.2.1, h.2.2.2.2.1⟩
  rw [h.2.2.1]; simp [V3.map, PF.mul]

/-- Claim C6, witness: the measurement `[5, 0, 0]` against a smoother at the
origin with unit variance has distance 5 > 4, so the update only inflates
the variance. -/
theorem outlier_rejection_effect_witness :
    (smootherAtOrigin.update ⟨PF.fin 5, PF.fin 0, PF.fin 0⟩ (1/10) 1).1.state =
      some (V3.const 0) ∧
    (smootherAtOrigin.update ⟨PF.fin 5, PF.fin 0, PF.fin 0⟩ (1/10) 1).1.variance =
      some ⟨PF.fin (1 * (3/2)), PF.fin (1 * (3/2)), PF.fin (1 * (3/2))⟩ :=
  have h := outlier_rejection_effect smootherAtOrigin (V3.const 0)
    ⟨PF.fin 5, PF.fin 0, PF.fin 0⟩ 1 1 1 (1/10) 1
    (by with_unfolding_all decide) (by with_unfolding_all decide)
    (by with_unfolding_all decide)
  ⟨h.1, h.2.2.1⟩

/-- Claim C8 (confirmed): an accepted (non-outlier) update of an initialized
smoother sets state to `alpha·measurement + (1−alpha)·state` and variance to
`alpha·measurement_variance + (1−alpha)·variance` per component, returning
the new state; the witness checks the `alpha = 1/2` scenario
`update([1,1,1], 0) = [1,1,1]` then `update([3,1,1], 1) = [2,1,1]`. -/
theorem smoother_accepted_update (s : ExpSmoother)
    (a1 a2 a3 v1 v2 v3 m1 m2 m3 mv ts : ℚ)
    (hst : s.state = some ⟨PF.fin a1, PF.fin a2, PF.fin a3⟩)
    (hva : s.variance = some ⟨PF.fin v1, PF.fin v2, PF.fin v3⟩)
    (ho : s.is_outlier ⟨PF.fin m1, PF.fin m2, PF.fin m3⟩ = false) :
    (s.update ⟨PF.fin m1, PF.fin m2, PF.fin m3⟩ mv ts).1.state =
      some ⟨PF.fin (s.alpha * m1 + (1 - s.alpha) * a1),
            PF.fin (s.alpha * m2 + (1 - s.alpha) * a2),
            PF.fin (s.alpha * m3 + (1 - s.alpha) * a3)⟩ ∧
    (s.update ⟨PF.fin m1, PF.fin m2, PF.fin m3⟩ mv ts).1.variance =
      some ⟨PF.fin (s.alpha * mv + (1 - s.alpha) * v1),
            PF.fin (s.alpha * mv + (1 - s.alpha) * v2),
            PF.fin (s.alpha * mv + (1 - s.alpha) * v3)⟩ ∧
    (s.update ⟨PF.fin m1, PF.fin m2, PF.fin m3⟩ mv ts).2.position =
      ⟨PF.fin (s.alpha * m1 + (1 - s.alpha) * a1),
       PF.fin (s.alpha * m2 + (1 - s.alpha) * a2),
       PF.fin (s.alpha * m3 + (1 - s.alpha) * a3)⟩ := by
  simp [ExpSmoother.update, hst, hva, ho, V3.map2, V3.map, PF.mul, PF.add]

/-- Claim C8, witness: the `alpha = 1/2` scenario — the first update adopts
`[1,1,1]`, the second returns the exact midpoint `[2,1,1]`. -/
theorem smoother_accepted_update_witness :
    (smootherHalf.update (V3.const 1) (1/10) 0).2.position = V3.const 1 ∧
    (smootherHalfInit.update ⟨PF.fin 3, PF.fin 1, PF.fin 1⟩ (1/10) 1).2.position =
      ⟨PF.fin 2, PF.fin 1, PF.fin 1⟩ := by
  constructor
  · with_unfolding_all decide
  · have h := (smoother_accepted_update smootherHalfInit 1 1 1 1 1 1 3 1 1 (1/10) 1
      (by with_unfolding_all decide) (by with_unfolding_all decide)
      (by with_unfolding_all decide)).2.2
    rw [h]
    with_unfolding_all decide

/-- Claim C10 (confirmed): an accepted update whose timestamp does not exceed
the stored `_last_time` still applies the position and variance smoothing but
leaves the velocity estimate unchanged — the finite-difference division is
guarded by the strict comparison `timestamp > _last_time`, so no division by
a zero or negative `dt` is ever performed. -/
theorem stale_timestamp_keeps_velocity (s : ExpSmoother) (st va m : V3) (lt mv ts : ℚ)
    (hst : s.state = some st) (hva : s.variance = some va)
    (ho : s.is_outlier m = false) (hlt : s.last_time = some lt) (hts : ts ≤ lt) :
    (s.update m mv ts).1.velocity = s.velocity ∧
    (s.update m mv ts).2.velocity = s.velocity ∧
    (s.update m mv ts).1.state =
      some (V3.map2 PF.add (V3.map (fun c => (PF.fin s.alpha).mul c) m)
        (V3.map (fun c => (PF.fin (1 - s.alpha)).mul c) st)) ∧
    (s.update m mv ts).1.variance =
      some (va.map (fun v => (PF.fin (s.alpha * mv)).add ((PF.fin (1 - s.alpha)).mul v))) ∧
    (s.update m mv ts).1.last_time = some ts := by
  simp [ExpSmoother.update, hst, hva, ho, hlt, show ¬ lt < ts from not_lt.mpr hts]

/-- Claim C10, witness: an update at the same timestamp as the initialization
(`dt = 0`) keeps the zero velocity. -/
theorem stale_timestamp_keeps_velocity_witness :
    (smootherAtOrigin.update (V3.const 0) (1/10) 0).1.velocity = V3.const 0 ∧
    (smootherAtOrigin.update (V3.const 0) (1/10) 0).1.last_time = some 0 :=
  have h := stale_timestamp_keeps_velocity smootherAtOrigin (V3.const 0) (V3.const 1)
    (V3.const 0) 0 (1/10) 0
    (by with_unfolding_all decide) (by with_unfolding_all decide)
    (by with_unfolding_all decide) (by with_unfolding_all decide) le_rfl
  ⟨by rw [h.1]; with_unfolding_all decide, h.2.2.2.2⟩

/-- Claim C7 (confirmed): for every velocity command and `confidence ≥ 0`
(with nonnegative configured limits), `clamp_velocity` returns a lateral pair
whose speed is at most `max_lateral_speed_mps · confidence` (hence at most
that bound plus any `ε ≥ 0`), scaling `vx, vy` by the common factor
`limit/speed` exactly when the input lateral speed exceeds the bound;
`vz` is returned unchanged whenever `vz ≤ max_descent_speed_mps · confidence`
(so an upward, negative `vz` is never clamped) and is capped at that limit
otherwise. -/
theorem clamp_velocity_correct (limits : SafetyLimits) (vx vy vz confidence : ℝ)
    (hc0 : 0 ≤ confidence) (hl : 0 ≤ limits.max_lateral_speed_mps) :
    (Real.sqrt ((clamp_velocity limits vx vy vz confidence).1 ^ 2 +
        (clamp_velocity limits vx vy vz confidence).2.1 ^ 2) ≤
      limits.max_lateral_speed_mps * confidence) ∧
    (Real.sqrt (vx ^ 2 + vy ^ 2) > limits.max_lateral_speed_mps * confidence →
      (clamp_velocity limits vx vy vz confidence).1 =
        vx * (limits.max_lateral_speed_mps * confidence / Real.sqrt (vx ^ 2 + vy ^ 2)) ∧
      (clamp_velocity limits vx vy vz confidence).2.1 =
        vy * (limits.max_lateral_speed_mps * confidence / Real.sqrt (vx ^ 2 + vy ^ 2))) ∧
    (Real.sqrt (vx ^ 2 + vy ^ 2) ≤ limits.max_lateral_speed_mps * confidence →
      (clamp_velocity limits vx vy vz confidence).1 = vx ∧
      (clamp_velocity limits vx vy vz confidence).2.1 = vy) ∧
    (vz ≤ limits.max_descent_speed_mps * confidence →
      (clamp_velocity limits vx vy vz confidence).2.2 = vz) ∧
    (vz > limits.max_descent_speed_mps * confidence →
      (clamp_velocity limits vx vy vz confidence).2.2 =
        limits.max_descent_speed_mps * confidence) := by
  have hL : 0 ≤ limits.max_lateral_speed_mps * confidence := mul_nonneg hl hc0
  refine ⟨?_, ?_, ?_, ?_, ?_⟩
  · by_cases h : Real.sqrt (vx ^ 2 + vy ^ 2) > limits.max_lateral_speed_mps * confidence
    · have hSpos : 0 < Real.sqrt (vx ^ 2 + vy ^ 2) := lt_of_le_of_lt hL h
      have hk : 0 ≤ limits.max_lateral_speed_mps * confidence / Real.sqrt (vx ^ 2 + vy ^ 2) :=
        div_nonneg hL (le_of_lt hSpos)
      have h1 : (clamp_velocity limits vx vy vz confidence).1 =
          vx * (limits.max_lateral_speed_mps * confidence / Real.sqrt (vx ^ 2 + vy ^ 2)) := by
        simp [clamp_velocity, h]
      have h2 : (clamp_velocity limits vx vy vz confidence).2.1 =
          vy * (limits.max_lateral_speed_mps * confidence / Real.sqrt (vx ^ 2 + vy ^ 2)) := by
        simp [clamp_velocity, h]
      rw [h1, h2]
      have hsq : (vx * (limits.max_lateral_speed_mps * confidence /
            Real.sqrt (vx ^ 2 + vy ^ 2))) ^ 2 +
          (vy * (limits.max_lateral_speed_mps * confidence /
            Real.sqrt (vx ^ 2 + vy ^ 2))) ^ 2 =
          (limits.max_lateral_speed_mps * confidence / Real.sqrt (vx ^ 2 + vy ^ 2)) ^ 2 *
            (vx ^ 2 + vy ^ 2) := by ring
      rw [hsq, Real.sqrt_mul (sq_nonneg _), Real.sqrt_sq hk,
        div_mul_cancel₀ _ (ne_of_gt hSpos)]
    · have h1 : (clamp_velocity limits vx vy vz confidence).1 = vx := by
        simp [clamp_velocity, h]
      have h2 : (clamp_velocity limits vx vy vz confidence).2.1 = vy := by
        simp [clamp_velocity, h]
      rw [h1, h2]
      exact not_lt.mp h
  · intro h
    constructor <;> simp [clamp_velocity, h]
  · intro h
    constructor <;> simp [clamp_velocity, not_lt.mpr h]
  · intro h
    simp [clamp_velocity, not_lt.mpr h]
  · intro h
    simp [clamp_velocity, h]

/-- Claim C7, witness: the default limits (1.5 m/s lateral, 0.7 m/s descent)
with full confidence and the command `(3, 4, 1)`: the lateral bound holds and
`vz` is capped at 0.7. -/
theorem clamp_velocity_correct_witness :
    (0 : ℝ) ≤ 1 ∧
    (0 : ℝ) ≤ ({} : SafetyLimits).max_lateral_speed_mps ∧
    (Real.sqrt ((clamp_velocity {} 3 4 1 1).1 ^ 2 + (clamp_velocity {} 3 4 1 1).2.1 ^ 2) ≤
      ({} : SafetyLimits).max_lateral_speed_mps * 1) ∧
    (clamp_velocity {} 3 4 1 1).2.2 = ({} : SafetyLimits).max_descent_speed_mps * 1 :=
  ⟨by norm_num,
   le_of_lt (by norm_num : (0 : ℝ) < 1.5),
   (clamp_velocity_correct {} 3 4 1 1 (by norm_num)
      (le_of_lt (by norm_num : (0 : ℝ) < 1.5))).1,
   (clamp_velocity_correct {} 3 4 1 1 (by norm_num)
      (le_of_lt (by norm_num : (0 : ℝ) < 1.5))).2.2.2.2
     (by norm_num : (1 : ℝ) > 0.7 * 1)⟩

end Scandium
